import Mathlib

/-!
Shallow embedding of `pkg/exectest/helm.go`: a deterministic test double for
a helm executor.  Go slices become Lean lists, Go maps become association
lists, Go `error` values become `Option String` (`none` = nil error,
`some msg` = an error with that message), and a Go panic / nil-pointer
dereference is modelled by an `Option` result being `none`.  Stateful
methods take the receiver `Helm` and return the updated `Helm` together
with their results.  The three injectable mutexes guard exactly the append
to their list; in this pure embedding each guarded append is one atomic
step, and concurrency is modelled as an arbitrary interleaving (a
permutation) of those atomic calls.
-/

/-- Go `strings.Contains s pat`: `pat` occurs as a contiguous substring. -/
def strContains (s pat : String) : Bool :=
  decide (pat.data <:+: s.data)

/-- Go `strings.Join elems sep`. -/
def goJoin (sep : String) : List String → String
  | [] => ""
  | [x] => x
  | x :: y :: xs => x ++ sep ++ goJoin sep (y :: xs)

/-- Go `fmt.Sprintf "%v" b` for a boolean. -/
def goBool (b : Bool) : String :=
  if b then "true" else "false"

/-- Association-list lookup, modelling Go map indexing (exact key equality). -/
def alookup {α β : Type} [DecidableEq α] : List (α × β) → α → Option β
  | [], _ => none
  | (k, v) :: rest, a => if k = a then some v else alookup rest a

/-- Semantic version, modelled as the major.minor.patch triple used by the
double (`Masterminds/semver.Version`; prerelease and metadata are out of the
double's scope). -/
structure SemVer where
  major : Nat
  minor : Nat
  patch : Nat
deriving DecidableEq, Repr

/-- Three-way comparison of versions, major first, then minor, then patch
(semver `Compare` restricted to plain versions). -/
def semverCompare (a b : SemVer) : Ordering :=
  if a.major < b.major then .lt else if b.major < a.major then .gt
  else if a.minor < b.minor then .lt else if b.minor < a.minor then .gt
  else if a.patch < b.patch then .lt else if b.patch < a.patch then .gt
  else .eq

/-- Value of a digit list, most significant first. -/
def digitsToNat (l : List Char) : Nat :=
  l.foldl (fun n c => n * 10 + (c.toNat - 48)) 0

/-- Parse a nonempty all-digit segment. -/
def parseNatSeg (l : List Char) : Option Nat :=
  if l.isEmpty then none
  else if l.all Char.isDigit then some (digitsToNat l) else none

/-- Split a character list on dots. -/
def splitDots : List Char → List Char × List (List Char)
  | [] => ([], [])
  | c :: rest =>
    let (cur, rs) := splitDots rest
    if c = '.' then ([], cur :: rs) else (c :: cur, rs)

/-- Parse of a version string (semver `MustParse` / `NewVersion` restricted to
plain versions): an optional leading `v`, then one to three dot-separated
numeric segments, missing segments defaulting to zero.  `none` models a parse
failure (`MustParse` panics). -/
def parseSemver (s : String) : Option SemVer :=
  let l := match s.data with
    | 'v' :: rest => rest
    | l => l
  let (p, ps) := splitDots l
  match p :: ps with
  | [a] => (parseNatSeg a).map fun n => ⟨n, 0, 0⟩
  | [a, b] => do pure ⟨← parseNatSeg a, ← parseNatSeg b, 0⟩
  | [a, b, c] => do pure ⟨← parseNatSeg a, ← parseNatSeg b, ← parseNatSeg c⟩
  | _ => none

/-- Key of the list-expectation map (`ListKey` in the source): the filter and
the flags joined without a delimiter. -/
structure ListKey where
  Filter : String
  Flags : String
deriving DecidableEq, Repr

/-- `ListKey.String()`: `fmt.Sprintf("listkey(filter=%s,flags=%s)", ...)`. -/
def ListKey.render (k : ListKey) : String :=
  "listkey(filter=" ++ k.Filter ++ ",flags=" ++ k.Flags ++ ")"

/-- Key of the diff-expectation map (`DiffKey` in the source). -/
structure DiffKey where
  Name : String
  Chart : String
  Flags : String
deriving DecidableEq, Repr

/-- Go `%v` rendering of a `DiffKey` value (plain struct formatting,
space-separated fields in braces; `DiffKey` has no `String()` method). -/
def DiffKey.render (k : DiffKey) : String :=
  "\x7b" ++ k.Name ++ " " ++ k.Chart ++ " " ++ k.Flags ++ "\x7d"

/-- One recorded invocation (`Release` in the source). -/
structure Release where
  Name : String
  Flags : List String
deriving DecidableEq, Repr

/-- The structured version returned by `GetVersion` (`helmexec.Version`). -/
structure HVersion where
  Major : Nat
  Minor : Nat
  Patch : Nat
deriving DecidableEq, Repr

/-- The test double's state (`Helm` in the source).  Go nil slices/maps are
`[]` / `none`; the `Lists` and `Diffs` maps are association lists keyed by
exact structural equality.  The per-chart `UpdateDepsCallbacks` are
error-returning functions, as in the source.  The three injectable mutexes
(`DiffMutex`, `ChartsMutex`, `ReleasesMutex`) have no pure content: each
guards exactly one list append, which this embedding treats as a single
atomic step of the corresponding operation. -/
structure Helm where
  Charts : List String
  Repo : List String
  Releases : List Release
  Deleted : List Release
  Linted : List Release
  Templated : List Release
  Lists : Option (List (ListKey × String))
  Diffs : Option (List (DiffKey × Option String))
  Diffed : List Release
  FailOnUnexpectedDiff : Bool
  FailOnUnexpectedList : Bool
  Version : Option SemVer
  UpdateDepsCallbacks : Option (List (String × (String → Option String)))
  Helm3 : Bool

/-- A `Helm` with nothing configured: all lists empty, all maps nil, no
version, lenient modes. -/
def emptyHelm : Helm :=
  { Charts := [], Repo := [], Releases := [], Deleted := [], Linted := [],
    Templated := [], Lists := none, Diffs := none, Diffed := [],
    FailOnUnexpectedDiff := false, FailOnUnexpectedList := false,
    Version := none, UpdateDepsCallbacks := none, Helm3 := false }

/-- `UpdateDeps`: sentinel check on the chart, then record the chart, then
run the per-chart callback if one is registered (the chart stays recorded
even when the callback fails). -/
def Helm.UpdateDeps (helm : Helm) (chart : String) : Helm × Option String :=
  if strContains chart "error" then
    (helm, some ("simulated UpdateDeps failure for chart: " ++ chart))
  else
    let helm' := { helm with Charts := helm.Charts ++ [chart] }
    let res : Option String :=
      match helm.UpdateDepsCallbacks with
      | none => none
      | some cbs =>
        match alookup cbs chart with
        | none => none
        | some cb => cb chart
    (helm', res)

/-- `BuildDeps`: sentinel check on the chart, then record the chart. -/
def Helm.BuildDeps (helm : Helm) (_name chart : String) (_flags : List String) :
    Helm × Option String :=
  if strContains chart "error" then (helm, some "error")
  else ({ helm with Charts := helm.Charts ++ [chart] }, none)

/-- `AddRepo`: replaces the `Repo` field with the full argument tuple. -/
def Helm.AddRepo (helm : Helm)
    (name repository cafile certfile keyfile username password managed : String)
    (passCredentials skipTLSVerify : Bool) : Helm × Option String :=
  ({ helm with Repo := [name, repository, cafile, certfile, keyfile, username,
      password, managed, goBool passCredentials, goBool skipTLSVerify] }, none)

/-- `SyncRelease`: sentinel check on the name, then record the release (under
`ReleasesMutex`) and the chart (under `ChartsMutex`). -/
def Helm.SyncRelease (helm : Helm) (name chart : String) (flags : List String) :
    Helm × Option String :=
  if strContains name "error" then (helm, some "error")
  else
    ({ helm with Releases := helm.Releases ++ [⟨name, flags⟩],
                 Charts := helm.Charts ++ [chart] }, none)

/-- The strict-miss error message of `DiffRelease`: it names the unmatched
key only (unlike `List`, it does not enumerate the configured keys). -/
def diffErrMsg (key : DiffKey) : String :=
  "unexpected diff with key: " ++ key.render

/-- `DiffRelease`: record into `Diffed` first (under `DiffMutex`,
unconditionally — there is no sentinel check), then resolve the response from
the diff-expectation map. -/
def Helm.DiffRelease (helm : Helm) (name chart : String) (_suppressDiff : Bool)
    (flags : List String) : Helm × Option String :=
  let helm' := { helm with Diffed := helm.Diffed ++ [⟨name, flags⟩] }
  let res : Option String :=
    match helm.Diffs with
    | none => none
    | some m =>
      let key : DiffKey := ⟨name, chart, goJoin "" flags⟩
      match alookup m key with
      | some err => err
      | none =>
        if helm.FailOnUnexpectedDiff then some (diffErrMsg key)
        else none
  (helm', res)

/-- `ReleaseStatus`: sentinel check on the release, then record it. -/
def Helm.ReleaseStatus (helm : Helm) (release : String) (flags : List String) :
    Helm × Option String :=
  if strContains release "error" then (helm, some "error")
  else ({ helm with Releases := helm.Releases ++ [⟨release, flags⟩] }, none)

/-- `DeleteRelease`: sentinel check on the name, then record it. -/
def Helm.DeleteRelease (helm : Helm) (name : String) (flags : List String) :
    Helm × Option String :=
  if strContains name "error" then (helm, some "error")
  else ({ helm with Deleted := helm.Deleted ++ [⟨name, flags⟩] }, none)

/-- The strict-miss error message of `List`, naming the unmatched key and
enumerating all configured keys. -/
def listErrMsg (key : ListKey) (m : List (ListKey × String)) : String :=
  "unexpected list key: " ++ key.render ++ " not found in " ++
    goJoin ", " (m.map fun kv => kv.1.render)

/-- `TestRelease`: sentinel check on the name, then record it. -/
def Helm.TestRelease (helm : Helm) (name : String) (flags : List String) :
    Helm × Option String :=
  if strContains name "error" then (helm, some "error")
  else ({ helm with Releases := helm.Releases ++ [⟨name, flags⟩] }, none)

/-- `Lint`: sentinel check on the name, then record it. -/
def Helm.Lint (helm : Helm) (name _chart : String) (flags : List String) :
    Helm × Option String :=
  if strContains name "error" then (helm, some "error")
  else ({ helm with Linted := helm.Linted ++ [⟨name, flags⟩] }, none)

/-- `TemplateRelease`: sentinel check on the name, then record it. -/
def Helm.TemplateRelease (helm : Helm) (name _chart : String) (flags : List String) :
    Helm × Option String :=
  if strContains name "error" then (helm, some "error")
  else ({ helm with Templated := helm.Templated ++ [⟨name, flags⟩] }, none)

/-- `IsHelm3`: the `Helm3` flag when no version is configured, otherwise the
major component compared with 3. -/
def Helm.IsHelm3 (helm : Helm) : Bool :=
  match helm.Version with
  | none => helm.Helm3
  | some v => v.major == 3

/-- `GetVersion` dereferences `helm.Version` without a nil check; `none`
models the nil-pointer dereference (a crash) when no version is configured. -/
def Helm.GetVersion (helm : Helm) : Option HVersion :=
  match helm.Version with
  | none => none
  | some v => some ⟨v.major, v.minor, v.patch⟩

/-- `IsVersionAtLeast`: `false` when no version is configured (before any
parsing); otherwise `MustParse` the argument — `none` models the panic on a
malformed string — and answer `Equal || GreaterThan`. -/
def Helm.IsVersionAtLeast (helm : Helm) (versionStr : String) : Option Bool :=
  match helm.Version with
  | none => some false
  | some v =>
    match parseSemver versionStr with
    | none => none
    | some ver =>
      some ((semverCompare v ver == .eq) || (semverCompare v ver == .gt))

/-- Chart metadata (`chart.Metadata`, restricted to the one field the double
uses). -/
structure ChartMetadata where
  Version : String
deriving DecidableEq, Repr

/-- `ShowChart`: a fixed-table lookup. -/
def Helm.ShowChart (_helm : Helm) (chartPath : String) :
    ChartMetadata × Option String :=
  if chartPath = "../../foo-bar" then (⟨"3.2.0"⟩, none)
  else (⟨""⟩, some "fake test error")

/-- Flags as passed to `List` (a Go `[]string`); an alias so that the
signature of `Helm.List` can be written inside the `Helm` namespace. -/
abbrev StringSlice := List String

/-- `List`: resolve from the list-expectation map; a nil map yields the fixed
placeholder, a hit yields the stored string, a miss yields the zero-value
string — with an error naming the key and the configured keys when strict
mode is on.  No state is mutated. -/
def Helm.List (helm : Helm) (filter : String) (flags : StringSlice) :
    String × Option String :=
  let key : ListKey := ⟨filter, goJoin "" flags⟩
  match helm.Lists with
  | none => ("dummy non-empty helm-list output", none)
  | some m =>
    match alookup m key with
    | some res => (res, none)
    | none =>
      if helm.FailOnUnexpectedList then ("", some (listErrMsg key m))
      else ("", none)

/-- The characters of `pat` occur contiguously in `s` (Go
`strings.Contains`, as a proposition). -/
abbrev StrIn (pat s : String) : Prop :=
  pat.data <:+: s.data

theorem strIn_intro (pat s : String) (a b : List Char)
    (h : s.data = a ++ pat.data ++ b) : StrIn pat s :=
  ⟨a, b, h.symm⟩

theorem strIn_app_left (pat s t : String) (h : StrIn pat t) : StrIn pat (s ++ t) := by
  obtain ⟨u, v, huv⟩ := h
  exact ⟨s.data ++ u, v, by simp [String.data_append, ← huv]⟩

theorem strIn_app_right (pat s t : String) (h : StrIn pat s) : StrIn pat (s ++ t) := by
  obtain ⟨u, v, huv⟩ := h
  exact ⟨u, v ++ t.data, by simp [String.data_append, ← huv]⟩

theorem strIn_goJoin (sep x : String) :
    (l : List String) → x ∈ l → StrIn x (goJoin sep l)
  | [y], h => by
    simp only [List.mem_singleton] at h
    subst h
    exact ⟨[], [], by simp [goJoin]⟩
  | y :: z :: xs, h => by
    rcases List.mem_cons.mp h with h | h
    · subst h
      show StrIn x (x ++ sep ++ goJoin sep (z :: xs))
      exact strIn_app_right _ _ _ (strIn_app_right _ _ _ ⟨[], [], by simp⟩)
    · show StrIn x (y ++ sep ++ goJoin sep (z :: xs))
      exact strIn_app_left _ _ _ (strIn_goJoin sep x (z :: xs) h)

/-- Claim C1, counterexample: `DiffRelease` is among the listed
state-mutating operations, yet for the sentinel name "error" it does not
fail — with no diff map configured it returns success — and it does record:
the `Diffed` list length grows by one. -/
theorem diff_ignores_sentinel_cex :
    strContains "error" "error" = true ∧
    (emptyHelm.DiffRelease "error" "some-chart" false []).2 = none ∧
    (emptyHelm.DiffRelease "error" "some-chart" false []).1.Diffed.length =
      emptyHelm.Diffed.length + 1 :=
  ⟨by decide, rfl, rfl⟩

/-- Claim C1, amended: for inputs containing the sentinel substring "error",
every state-mutating operation except `DiffRelease` — `UpdateDeps` and
`BuildDeps` on the chart reference, `SyncRelease`, `ReleaseStatus`,
`DeleteRelease`, `TestRelease`, `Lint` and `TemplateRelease` on the release
name — returns a failure and leaves the state (hence every observation list
length) unchanged; `DiffRelease` performs no sentinel check and always
appends its record to `Diffed`. -/
theorem sentinel_ops_fail_without_recording (helm : Helm)
    (name chart rel : String) (flags : List String) (s : Bool)
    (hn : strContains name "error" = true)
    (hc : strContains chart "error" = true)
    (hr : strContains rel "error" = true) :
    helm.UpdateDeps chart =
      (helm, some ("simulated UpdateDeps failure for chart: " ++ chart)) ∧
    helm.BuildDeps name chart flags = (helm, some "error") ∧
    helm.SyncRelease name chart flags = (helm, some "error") ∧
    helm.ReleaseStatus rel flags = (helm, some "error") ∧
    helm.DeleteRelease name flags = (helm, some "error") ∧
    helm.TestRelease name flags = (helm, some "error") ∧
    helm.Lint name chart flags = (helm, some "error") ∧
    helm.TemplateRelease name chart flags = (helm, some "error") ∧
    (helm.DiffRelease name chart s flags).1.Diffed =
      helm.Diffed ++ [⟨name, flags⟩] := by
  refine ⟨?_, ?_, ?_, ?_, ?_, ?_, ?_, ?_, rfl⟩ <;>
    simp [Helm.UpdateDeps, Helm.BuildDeps, Helm.SyncRelease, Helm.ReleaseStatus,
      Helm.DeleteRelease, Helm.TestRelease, Helm.Lint, Helm.TemplateRelease,
      hn, hc, hr]

/-- Witness for `sentinel_ops_fail_without_recording` at concrete sentinel
inputs. -/
theorem sentinel_ops_fail_without_recording_w :
    emptyHelm.SyncRelease "error-name" "error-chart" [] =
      (emptyHelm, some "error") :=
  (sentinel_ops_fail_without_recording emptyHelm "error-name" "error-chart"
    "error-rel" [] false (by decide) (by decide) (by decide)).2.2.1

/-- A double with one registered diff expectation and strict diff mode, used
to exercise the strict-miss path of `DiffRelease`. -/
def diffStrictHelm : Helm :=
  { emptyHelm with
    Diffs := some [(⟨"reg-name", "reg-chart", "reg-flags"⟩, none)],
    FailOnUnexpectedDiff := true }

/-- Claim C2, counterexample: on a strict-mode miss, the error returned by
`DiffRelease` names only the unmatched key; the rendering of the one
configured key (its name is "reg-name") does not occur in the message, so
the error does not include the set of known keys. -/
theorem diff_err_omits_known_keys_cex :
    (diffStrictHelm.DiffRelease "miss" "c" false []).2 =
      some "unexpected diff with key: \x7bmiss c \x7d" ∧
    ¬ StrIn "reg-name" "unexpected diff with key: \x7bmiss c \x7d" :=
  ⟨rfl, by decide⟩

/-- Claim C2, amended: with a configured diff-expectation map, a registered
(name, chart, joined-flags) key returns exactly the stored error value
(possibly `none`); an unregistered key under strict mode returns an error
naming the unmatched key — its name, chart and joined flags all occur in the
message — but not the set of known keys; an unregistered key without strict
mode returns `none`.  In every case the invocation is recorded in `Diffed`
first. -/
theorem diff_resolution (helm : Helm) (m : List (DiffKey × Option String))
    (name chart : String) (s : Bool) (flags : List String)
    (hm : helm.Diffs = some m) :
    ((helm.DiffRelease name chart s flags).1.Diffed =
      helm.Diffed ++ [⟨name, flags⟩]) ∧
    (∀ e, alookup m ⟨name, chart, goJoin "" flags⟩ = some e →
      (helm.DiffRelease name chart s flags).2 = e) ∧
    (alookup m ⟨name, chart, goJoin "" flags⟩ = none →
      helm.FailOnUnexpectedDiff = true →
      (helm.DiffRelease name chart s flags).2 =
        some (diffErrMsg ⟨name, chart, goJoin "" flags⟩) ∧
      StrIn name (diffErrMsg ⟨name, chart, goJoin "" flags⟩) ∧
      StrIn chart (diffErrMsg ⟨name, chart, goJoin "" flags⟩) ∧
      StrIn (goJoin "" flags) (diffErrMsg ⟨name, chart, goJoin "" flags⟩)) ∧
    (alookup m ⟨name, chart, goJoin "" flags⟩ = none →
      helm.FailOnUnexpectedDiff = false →
      (helm.DiffRelease name chart s flags).2 = none) := by
  refine ⟨rfl, ?_, ?_, ?_⟩
  · intro e he
    simp [Helm.DiffRelease, hm, he]
  · intro hmiss hstrict
    refine ⟨by simp [Helm.DiffRelease, hm, hmiss, hstrict], ?_, ?_, ?_⟩
    · exact strIn_intro _ _
        ("unexpected diff with key: ".data ++ "\x7b".data)
        ((" " ++ chart ++ " " ++ goJoin "" flags ++ "\x7d").data)
        (by simp [diffErrMsg, DiffKey.render, String.data_append])
    · exact strIn_intro _ _
        (("unexpected diff with key: " ++ "\x7b" ++ name ++ " ").data)
        ((" " ++ goJoin "" flags ++ "\x7d").data)
        (by simp [diffErrMsg, DiffKey.render, String.data_append])
    · exact strIn_intro _ _
        (("unexpected diff with key: " ++ "\x7b" ++ name ++ " " ++ chart ++ " ").data)
        ("\x7d".data)
        (by simp [diffErrMsg, DiffKey.render, String.data_append])
  · intro hmiss hlenient
    simp [Helm.DiffRelease, hm, hmiss, hlenient]

/-- Witness for `diff_resolution`: a registered key returns its stored
error value. -/
theorem diff_resolution_w :
    (diffStrictHelm.DiffRelease "reg-name" "reg-chart" false ["reg-flags"]).2 =
      none :=
  (diff_resolution diffStrictHelm
    [(⟨"reg-name", "reg-chart", "reg-flags"⟩, none)]
    "reg-name" "reg-chart" false ["reg-flags"] rfl).2.1 none (by decide)

/-- Claim C3: resolution of `List` against a configured list-expectation
map.  A registered (filter, joined-flags) key returns exactly the registered
string with no error; an unregistered key under strict mode returns an error
whose message contains the unmatched key's filter and joined flags and the
rendering of every configured key; an unregistered key without strict mode
returns the zero-value string with no error. -/
theorem list_resolution (helm : Helm) (m : List (ListKey × String))
    (filter : String) (flags : List String) (hm : helm.Lists = some m) :
    (∀ res, alookup m ⟨filter, goJoin "" flags⟩ = some res →
      helm.List filter flags = (res, none)) ∧
    (alookup m ⟨filter, goJoin "" flags⟩ = none →
      helm.FailOnUnexpectedList = true →
      helm.List filter flags =
        ("", some (listErrMsg ⟨filter, goJoin "" flags⟩ m)) ∧
      StrIn filter (listErrMsg ⟨filter, goJoin "" flags⟩ m) ∧
      StrIn (goJoin "" flags) (listErrMsg ⟨filter, goJoin "" flags⟩ m) ∧
      ∀ kv ∈ m, StrIn kv.1.render (listErrMsg ⟨filter, goJoin "" flags⟩ m)) ∧
    (alookup m ⟨filter, goJoin "" flags⟩ = none →
      helm.FailOnUnexpectedList = false →
      helm.List filter flags = ("", none)) := by
  refine ⟨?_, ?_, ?_⟩
  · intro res hres
    simp [Helm.List, hm, hres]
  · intro hmiss hstrict
    refine ⟨by simp [Helm.List, hm, hmiss, hstrict], ?_, ?_, ?_⟩
    · exact strIn_intro _ _
        (("unexpected list key: " ++ "listkey(filter=").data)
        ((("," ++ "flags=" ++ goJoin "" flags ++ ")" ++ " not found in " ++
          goJoin ", " (m.map fun kv => kv.1.render)).data))
        (by simp [listErrMsg, ListKey.render, String.data_append])
    · exact strIn_intro _ _
        (("unexpected list key: " ++ "listkey(filter=" ++ filter ++ ",flags=").data)
        (((")" ++ " not found in " ++
          goJoin ", " (m.map fun kv => kv.1.render)).data))
        (by simp [listErrMsg, ListKey.render, String.data_append])
    · intro kv hkv
      show StrIn kv.1.render
        ("unexpected list key: " ++ (ListKey.mk filter (goJoin "" flags)).render ++
          " not found in " ++ goJoin ", " (m.map fun x => x.1.render))
      exact strIn_app_left _ _ _
        (strIn_goJoin ", " kv.1.render (m.map fun x => x.1.render)
          (List.mem_map_of_mem _ hkv))
  · intro hmiss hlenient
    simp [Helm.List, hm, hmiss, hlenient]

/-- A double with one registered list expectation and strict list mode. -/
def listStrictHelm : Helm :=
  { emptyHelm with
    Lists := some [(⟨"reg-filter", "reg-flags"⟩, "reg-output")],
    FailOnUnexpectedList := true }

/-- Witness for `list_resolution`: the registered key returns its stored
string, and a strict-mode miss returns the enumerating error. -/
theorem list_resolution_w :
    listStrictHelm.List "reg-filter" ["reg-flags"] = ("reg-output", none) :=
  (list_resolution listStrictHelm [(⟨"reg-filter", "reg-flags"⟩, "reg-output")]
    "reg-filter" ["reg-flags"] rfl).1 "reg-output" (by decide)

/-- Claim C4: with no expectation map configured (the Go map is nil), `List`
returns the fixed non-empty placeholder string with no error and
`DiffRelease` returns success, regardless of filter, name, chart and
flags. -/
theorem nil_maps_defaults (helm : Helm) (filter name chart : String)
    (s : Bool) (flags : List String)
    (hL : helm.Lists = none) (hD : helm.Diffs = none) :
    helm.List filter flags = ("dummy non-empty helm-list output", none) ∧
    "dummy non-empty helm-list output" ≠ "" ∧
    (helm.DiffRelease name chart s flags).2 = none := by
  refine ⟨by simp [Helm.List, hL], by decide, by simp [Helm.DiffRelease, hD]⟩

/-- Witness for `nil_maps_defaults` on the unconfigured double. -/
theorem nil_maps_defaults_w :
    emptyHelm.List "some-filter" ["f1", "f2"] =
      ("dummy non-empty helm-list output", none) :=
  (nil_maps_defaults emptyHelm "some-filter" "n" "c" false ["f1", "f2"]
    rfl rfl).1

/-- One pending `DiffRelease` invocation, for the interleaving model: with
`DiffMutex` supplied, the guarded append is the whole critical section, so a
schedule of concurrent calls is an arbitrary ordering of these atomic
steps. -/
structure DiffCall where
  name : String
  chart : String
  suppress : Bool
  flags : List String
deriving DecidableEq

/-- Execute a schedule of `DiffRelease` calls in order. -/
def runDiffs (helm : Helm) (calls : List DiffCall) : Helm :=
  calls.foldl
    (fun h c => (h.DiffRelease c.name c.chart c.suppress c.flags).1) helm

theorem runDiffs_diffed (helm : Helm) : (calls : List DiffCall) →
    (runDiffs helm calls).Diffed =
      helm.Diffed ++ calls.map fun c => Release.mk c.name c.flags
  | [] => by simp [runDiffs]
  | c :: cs => by
    have ih := runDiffs_diffed
      ((helm.DiffRelease c.name c.chart c.suppress c.flags).1) cs
    simp only [runDiffs, List.foldl] at ih ⊢
    rw [ih]
    simp [Helm.DiffRelease]

/-- Claim C5: with the guarding lock supplied, each `DiffRelease` call is one
atomic append to `Diffed`; a schedule of N distinct calls appends exactly one
record per call (the final `Diffed` is the initial one followed by the N call
records in schedule order), and any two interleavings — any two permutations
of the same calls — leave `Diffed` with the same length, namely the initial
length plus N. -/
theorem concurrent_diffs (helm : Helm) (calls calls' : List DiffCall)
    (_hnd : calls.Nodup) (hperm : List.Perm calls calls') :
    (runDiffs helm calls).Diffed =
      helm.Diffed ++ (calls.map fun c => Release.mk c.name c.flags) ∧
    (runDiffs helm calls).Diffed.length = helm.Diffed.length + calls.length ∧
    (runDiffs helm calls').Diffed.length = helm.Diffed.length + calls.length := by
  refine ⟨runDiffs_diffed helm calls, ?_, ?_⟩
  · simp [runDiffs_diffed helm calls]
  · simp [runDiffs_diffed helm calls', hperm.length_eq]

/-- Witness for `concurrent_diffs`: two distinct calls, run in either order,
leave `Diffed` with two records. -/
theorem concurrent_diffs_w :
    (runDiffs emptyHelm
      [⟨"n2", "c2", false, ["y"]⟩, ⟨"n1", "c1", false, ["x"]⟩]).Diffed.length =
      emptyHelm.Diffed.length + 2 :=
  (concurrent_diffs emptyHelm
    [⟨"n1", "c1", false, ["x"]⟩, ⟨"n2", "c2", false, ["y"]⟩]
    [⟨"n2", "c2", false, ["y"]⟩, ⟨"n1", "c1", false, ["x"]⟩]
    (by decide) (List.Perm.swap _ _ _)).2.2

/-- The spec's "standard major.minor.patch ordering", as an order relation
written from the spec's words (to be compared with the comparison the code
performs). -/
def SemVer.le (a b : SemVer) : Prop :=
  a.major < b.major ∨ (a.major = b.major ∧
    (a.minor < b.minor ∨ (a.minor = b.minor ∧ a.patch ≤ b.patch)))

instance (a b : SemVer) : Decidable (SemVer.le a b) := by
  unfold SemVer.le; infer_instance

theorem semverGE_iff (v x : SemVer) :
    ((semverCompare v x == .eq) || (semverCompare v x == .gt)) = true ↔
      SemVer.le x v := by
  simp only [semverCompare, SemVer.le]
  split_ifs with h1 h2 h3 h4 h5 h6
  · constructor
    · intro h; exact absurd h (by decide)
    · intro h; omega
  · constructor
    · intro _; omega
    · intro _; decide
  · constructor
    · intro h; exact absurd h (by decide)
    · intro h; omega
  · constructor
    · intro _; omega
    · intro _; decide
  · constructor
    · intro h; exact absurd h (by decide)
    · intro h; omega
  · constructor
    · intro _; omega
    · intro _; decide
  · constructor
    · intro _; omega
    · intro _; decide

/-- Claim C6: `IsVersionAtLeast X` (for a parseable X) answers `true` exactly
when a structured version is configured and is equal to or greater than X
under standard major.minor.patch ordering; with no configured version it
answers `false`.  In particular `IsVersionAtLeast "1.2.3"` is true for
configured versions 1.2.3 and 1.3.0, and false for 1.2.2 or when unset. -/
theorem isVersionAtLeast_spec (helm : Helm) (x : String) (vx : SemVer)
    (hx : parseSemver x = some vx) :
    (helm.IsVersionAtLeast x = some true ↔
      ∃ v, helm.Version = some v ∧ SemVer.le vx v) ∧
    (helm.Version = none → helm.IsVersionAtLeast x = some false) ∧
    ({ emptyHelm with Version := some ⟨1, 2, 3⟩ } : Helm).IsVersionAtLeast
      "1.2.3" = some true ∧
    ({ emptyHelm with Version := some ⟨1, 3, 0⟩ } : Helm).IsVersionAtLeast
      "1.2.3" = some true ∧
    ({ emptyHelm with Version := some ⟨1, 2, 2⟩ } : Helm).IsVersionAtLeast
      "1.2.3" = some false ∧
    emptyHelm.IsVersionAtLeast "1.2.3" = some false := by
  refine ⟨?_, ?_, by decide, by decide, by decide, by decide⟩
  · cases hv : helm.Version with
    | none => simp [Helm.IsVersionAtLeast, hv]
    | some v =>
      simp only [Helm.IsVersionAtLeast, hv, hx, Option.some_inj, exists_eq_left']
      exact semverGE_iff v vx
  · intro hv
    simp [Helm.IsVersionAtLeast, hv]

/-- Witness for `isVersionAtLeast_spec` at configured version 1.2.3 and
query "1.2.3". -/
theorem isVersionAtLeast_spec_w :
    ({ emptyHelm with Version := some ⟨1, 2, 3⟩ } : Helm).IsVersionAtLeast
      "1.2.3" = some true :=
  (isVersionAtLeast_spec { emptyHelm with Version := some ⟨1, 2, 3⟩ }
    "1.2.3" ⟨1, 2, 3⟩ (by decide)).1.mpr ⟨⟨1, 2, 3⟩, rfl, by decide⟩

/-- Claim C7, counterexample: an unparsable version string is not always
fatal — when no version is configured, `IsVersionAtLeast` returns the
ordinary boolean `false` before any parsing happens. -/
theorem malformed_not_always_fatal_cex :
    parseSemver "garbage" = none ∧
    emptyHelm.IsVersionAtLeast "garbage" = some false :=
  ⟨by decide, rfl⟩

/-- Claim C7, amended: an unparsable version string X is fatal to the call
path (`MustParse` panics, modelled by `none`) exactly when a structured
version is configured; with no configured version the call returns `false`
without parsing X. -/
theorem malformed_fatal_when_version_set (helm : Helm) (v : SemVer)
    (x : String) (hv : helm.Version = some v) (hx : parseSemver x = none) :
    helm.IsVersionAtLeast x = none := by
  simp [Helm.IsVersionAtLeast, hv, hx]

/-- Witness for `malformed_fatal_when_version_set` on a configured double
and the unparsable string "garbage". -/
theorem malformed_fatal_when_version_set_w :
    ({ emptyHelm with Version := some ⟨1, 2, 3⟩ } : Helm).IsVersionAtLeast
      "garbage" = none :=
  malformed_fatal_when_version_set _ ⟨1, 2, 3⟩ "garbage" rfl (by decide)

/-- Claim C8, counterexample: `GetVersion` on a double with no configured
version dereferences the nil version pointer — modelled by `none` — instead
of returning a structured value. -/
theorem getVersion_crashes_when_unset_cex :
    emptyHelm.Version = none ∧ emptyHelm.GetVersion = none :=
  ⟨rfl, rfl⟩

/-- Claim C8, amended: every failure of the double is an ordinary returned
error value except the malformed-version path and `GetVersion` with no
configured version, which dereferences the absent version and crashes;
whenever a version is configured, `GetVersion` returns its structured
{major, minor, patch} value, and it crashes exactly when none is
configured. -/
theorem getVersion_structured_when_set (helm : Helm) :
    (∀ v, helm.Version = some v →
      helm.GetVersion = some ⟨v.major, v.minor, v.patch⟩) ∧
    (helm.GetVersion = none ↔ helm.Version = none) := by
  cases hv : helm.Version <;> simp [Helm.GetVersion, hv]

/-- Witness for `getVersion_structured_when_set` at a concrete configured
version. -/
theorem getVersion_structured_when_set_w :
    ({ emptyHelm with Version := some ⟨4, 5, 6⟩ } : Helm).GetVersion =
      some ⟨4, 5, 6⟩ :=
  (getVersion_structured_when_set _).1 ⟨4, 5, 6⟩ rfl

/-- Claim C9, counterexample: `AddRepo` replaces the repository record
wholesale, so after a second repository-add the record of the first call is
gone — a previously recorded entry was removed by a later operation. -/
theorem addRepo_overwrites_previous_cex :
    ((emptyHelm.AddRepo "r1" "u1" "" "" "" "" "" "" false false).1.AddRepo
        "r2" "u2" "" "" "" "" "" "" false false).1.Repo =
      ["r2", "u2", "", "", "", "", "", "", "false", "false"] ∧
    "r1" ∈ (emptyHelm.AddRepo "r1" "u1" "" "" "" "" "" "" false false).1.Repo ∧
    "r1" ∉ ((emptyHelm.AddRepo "r1" "u1" "" "" "" "" "" "" false false).1.AddRepo
        "r2" "u2" "" "" "" "" "" "" false false).1.Repo :=
  ⟨rfl, by decide, by decide⟩

/-- Observation state of `h` is preserved in `h'`: every observation list of
`h` is a prefix of the one in `h'` (records are only appended, never removed
or edited) and the expectation maps are untouched. -/
def obsPreserved (h h' : Helm) : Prop :=
  h.Releases <+: h'.Releases ∧ h.Charts <+: h'.Charts ∧
  h.Deleted <+: h'.Deleted ∧ h.Linted <+: h'.Linted ∧
  h.Templated <+: h'.Templated ∧ h.Diffed <+: h'.Diffed ∧
  h'.Repo = h.Repo ∧ h'.Lists = h.Lists ∧ h'.Diffs = h.Diffs

/-- Claim C9, amended: every recording operation except `AddRepo` only
appends to observation state — after any such call, every previously
recorded entry of every observation list is still present and unchanged (the
old list is a prefix of the new one) and the expectation maps are untouched.
`AddRepo` instead replaces the repository field wholesale, retaining only
the latest argument tuple. -/
theorem ops_append_only (helm : Helm) (name chart rel : String)
    (flags : List String) (s : Bool) :
    obsPreserved helm (helm.UpdateDeps chart).1 ∧
    obsPreserved helm (helm.BuildDeps name chart flags).1 ∧
    obsPreserved helm (helm.SyncRelease name chart flags).1 ∧
    obsPreserved helm (helm.DiffRelease name chart s flags).1 ∧
    obsPreserved helm (helm.ReleaseStatus rel flags).1 ∧
    obsPreserved helm (helm.DeleteRelease name flags).1 ∧
    obsPreserved helm (helm.TestRelease name flags).1 ∧
    obsPreserved helm (helm.Lint name chart flags).1 ∧
    obsPreserved helm (helm.TemplateRelease name chart flags).1 := by
  refine ⟨?_, ?_, ?_, ?_, ?_, ?_, ?_, ?_, ?_⟩ <;>
    · first
      | (simp only [Helm.UpdateDeps, Helm.BuildDeps, Helm.SyncRelease,
          Helm.ReleaseStatus, Helm.DeleteRelease, Helm.TestRelease, Helm.Lint,
          Helm.TemplateRelease]
         split <;>
           simp [obsPreserved, List.prefix_append, List.prefix_rfl])
      | simp [Helm.DiffRelease, obsPreserved, List.prefix_append,
          List.prefix_rfl]

/-- Claim C10: `List` and `DiffRelease` resolve expectations through the
delimiter-free concatenation of the flags list, so two flag lists with equal
concatenation (and otherwise identical inputs and state) produce identical
results and errors. -/
theorem flags_join_collision (helm : Helm) (filter name chart : String)
    (s : Bool) (f1 f2 : List String) (hj : goJoin "" f1 = goJoin "" f2) :
    helm.List filter f1 = helm.List filter f2 ∧
    (helm.DiffRelease name chart s f1).2 = (helm.DiffRelease name chart s f2).2 := by
  constructor
  · cases hL : helm.Lists <;> simp [Helm.List, hj, hL]
  · cases hD : helm.Diffs <;> simp [Helm.DiffRelease, hj, hD]

/-- Witness for `flags_join_collision`: the flag lists ["ab"] and
["a", "b"] have equal concatenation and are indistinguishable to `List`. -/
theorem flags_join_collision_w :
    emptyHelm.List "some-filter" ["ab"] = emptyHelm.List "some-filter" ["a", "b"] :=
  (flags_join_collision emptyHelm "some-filter" "n" "c" false
    ["ab"] ["a", "b"] (by decide)).1
